import Mathlib

/-!
Verification of the logique-permission RBAC core.

The definitions below are a shallow embedding of the TypeScript source:
* `Permission`, `Role` — src/models/Permission.ts, src/models/Role.ts
* `Subject` operations — the HasPermissionsTrait / HasRolesTrait mixins
* `Guard`, `PermissionManager` — the guard registry and manager facade

JavaScript `Date` values are modelled as `Nat`; the `Math.random`-based
`generateId` is modelled by passing the generated identifier as an explicit
argument (`freshId`), since its output is a random string.  JavaScript's
`x || d` on strings treats the empty string as falsy; this is captured by
`jsOrS` / `jsOrNone` below.
-/

/-- JS `o || d` for an optional string field: `undefined` and `""` fall back
to the default `d`. -/
def jsOrS (o : Option String) (d : String) : String :=
  match o with
  | some s => if s = "" then d else s
  | none => d

/-- JS `o || undefined` for an optional string field: `""` is normalised to
`undefined`. -/
def jsOrNone (o : Option String) : Option String :=
  match o with
  | some s => if s = "" then none else some s
  | none => none

/-- A JS `Map` keyed by strings, with `set` replacing the value at an
existing key in place (keys stay unique and keep their insertion order)
and appending otherwise. -/
def jsMapSet {α : Type} : List (String × α) → String → α → List (String × α)
  | [], k, v => [(k, v)]
  | e :: rest, k, v => if e.1 = k then (k, v) :: rest else e :: jsMapSet rest k v

/-- `Partial<IPermission>`: the argument of the `Permission` constructor. -/
structure PermissionData where
  id : Option String
  name : Option String
  guardName : Option String
  description : Option String
  createdAt : Option Nat
  updatedAt : Option Nat
deriving DecidableEq

/-- A constructed `Permission` instance.  The class always assigns every
field in its constructor, so none of them is optional here except
`description` (typed `string | undefined`). -/
structure Permission where
  id : String
  name : String
  guardName : String
  description : Option String
  createdAt : Nat
  updatedAt : Nat
deriving DecidableEq

/-- The `IPermission` interface (`id` and `name` required, the rest
optional); this is the shape of `toJSON` output and of permission entities
passed to the mixins. -/
structure IPerm where
  id : String
  name : String
  guardName : Option String
  description : Option String
  createdAt : Option Nat
  updatedAt : Option Nat
deriving DecidableEq

/-- View an `IPermission` value as constructor input (`Partial`). -/
def IPerm.toData (e : IPerm) : PermissionData :=
  ⟨some e.id, some e.name, e.guardName, e.description, e.createdAt, e.updatedAt⟩

/-- The `Permission` constructor (src/models/Permission.ts, lines 11-18):
each field defaults via JS `||`; `freshId` stands for `generateId()` and
`now` for `new Date()`. -/
def Permission.construct (d : PermissionData) (freshId : String) (now : Nat) : Permission :=
  { id := jsOrS d.id freshId
    name := jsOrS d.name ""
    guardName := jsOrS d.guardName "web"
    description := jsOrNone d.description
    createdAt := d.createdAt.getD now
    updatedAt := d.updatedAt.getD now }

/-- `Permission.toJSON` (lines 24-33). -/
def Permission.toJSON (p : Permission) : IPerm :=
  ⟨p.id, p.name, some p.guardName, jsOrNone p.description, some p.createdAt, some p.updatedAt⟩

/-- `Permission.fromJSON` (lines 35-37): `new Permission(data)`. -/
def Permission.fromJSON (d : IPerm) (freshId : String) (now : Nat) : Permission :=
  Permission.construct d.toData freshId now

/-- `Permission.equals` (lines 39-41): compares the (id, name, guardName)
triple. -/
def Permission.equals (p q : Permission) : Bool :=
  p.id == q.id && p.name == q.name && p.guardName == q.guardName

/-- A `Permission` instance viewed as an `IPermission` value (TS structural
subtyping), as when an instance is passed where the interface is expected. -/
def Permission.toEntity (p : Permission) : IPerm :=
  ⟨p.id, p.name, some p.guardName, p.description, some p.createdAt, some p.updatedAt⟩

/-- The `string | IPermission` union used throughout the mixins and the
manager. -/
abbrev POrN : Type := String ⊕ IPerm

/-- `typeof permission === 'string' ? permission : permission.name`. -/
def pname (x : POrN) : String :=
  match x with
  | Sum.inl s => s
  | Sum.inr e => e.name

/-- `Partial<IRole>`: the argument of the `Role` constructor.  Its
`permissions` entries are either `Permission` instances (kept as-is by the
`instanceof` test) or plain `IPermission` data (copied via the
constructor). -/
structure RoleData where
  id : Option String
  name : Option String
  guardName : Option String
  description : Option String
  permissions : Option (List (Permission ⊕ IPerm))
  createdAt : Option Nat
  updatedAt : Option Nat

/-- A constructed `Role` instance (src/models/Role.ts). -/
structure Role where
  id : String
  name : String
  guardName : String
  description : Option String
  permissions : List Permission
  createdAt : Nat
  updatedAt : Nat
deriving DecidableEq

/-- The `IRole` interface, the shape of `Role.toJSON` output. -/
structure IRole where
  id : String
  name : String
  guardName : Option String
  description : Option String
  permissions : Option (List IPerm)
  createdAt : Option Nat
  updatedAt : Option Nat
deriving DecidableEq

/-- `(data.permissions || []).map(p => p instanceof Permission ? p : new
Permission(p))` — each `new Permission` call draws its own generated id and
date, supplied here by position through `fp` and `np`. -/
def buildPerms : List (Permission ⊕ IPerm) → (Nat → String) → (Nat → Nat) → Nat → List Permission
  | [], _, _, _ => []
  | Sum.inl p :: rest, fp, np, i => p :: buildPerms rest fp np (i + 1)
  | Sum.inr d :: rest, fp, np, i =>
      Permission.construct d.toData (fp i) (np i) :: buildPerms rest fp np (i + 1)

/-- The `Role` constructor (src/models/Role.ts, lines 12-22). -/
def Role.construct (d : RoleData) (freshId : String) (now : Nat)
    (fp : Nat → String) (np : Nat → Nat) : Role :=
  { id := jsOrS d.id freshId
    name := jsOrS d.name ""
    guardName := jsOrS d.guardName "web"
    description := jsOrNone d.description
    permissions := buildPerms (d.permissions.getD []) fp np 0
    createdAt := d.createdAt.getD now
    updatedAt := d.updatedAt.getD now }

/-- `Role.toJSON`. -/
def Role.toJSON (r : Role) : IRole :=
  ⟨r.id, r.name, some r.guardName, jsOrNone r.description,
    some (r.permissions.map Permission.toJSON), some r.createdAt, some r.updatedAt⟩

/-- View an `IRole` value as `Role` constructor input; the nested plain
permission records take the `new Permission(p)` branch of the `instanceof`
test. -/
def IRole.toData (d : IRole) : RoleData :=
  ⟨some d.id, some d.name, d.guardName, d.description,
    d.permissions.map (List.map Sum.inr), d.createdAt, d.updatedAt⟩

/-- `Role.fromJSON(data)`: `new Role(data)`. -/
def Role.fromJSON (d : IRole) (freshId : String) (now : Nat)
    (fp : Nat → String) (np : Nat → Nat) : Role :=
  Role.construct d.toData freshId now fp np

/-- `Role.equals`: compares the (id, name, guardName) triple. -/
def Role.equals (r q : Role) : Bool :=
  r.id == q.id && r.name == q.name && r.guardName == q.guardName

/-- The state of a subject carrying both capability mixins: the
`permissions` array of HasPermissionsTrait and the `roles` array of
HasRolesTrait. -/
structure Subject where
  permissions : List Permission
  roles : List Role
deriving DecidableEq

/-- `HasPermissionsTrait.hasPermission` (src/unnamed/part_003, lines 8-22):
a direct permission with matching name and guard, or a permission of some
assigned role with matching name and guard (the role's own guard tag is not
consulted). -/
def Subject.hasPermission (u : Subject) (x : POrN) (g : String) : Bool :=
  let n := pname x
  u.permissions.any (fun p => p.name == n && p.guardName == g) ||
    u.roles.any (fun r => r.permissions.any (fun p => p.name == n && p.guardName == g))

/-- The `const perm = ...` initializer of `givePermissionTo` (lines 33-35):
a string becomes `new Permission({ name, guardName })`, an entity is copied
through the constructor (keeping its own `guardName`). -/
def givePerm (x : POrN) (g : String) (freshId : String) (now : Nat) : Permission :=
  match x with
  | Sum.inl s => Permission.construct ⟨none, some s, some g, none, none, none⟩ freshId now
  | Sum.inr e => Permission.construct e.toData freshId now

/-- The guard tag that `givePermissionTo(x, g)` stamps on the permission it
constructs: `g` (or `"web"` when `g` is empty) for a string argument, the
entity's own guard (defaulted to `"web"`) for an entity argument. -/
def giveGuard (x : POrN) (g : String) : String :=
  match x with
  | Sum.inl _ => jsOrS (some g) "web"
  | Sum.inr e => jsOrS e.guardName "web"

/-- `HasPermissionsTrait.givePermissionTo` (lines 32-40): build a
`Permission` (from a name, or by copying the given entity), insert it only
when `hasPermission` does not already hold for the target guard. -/
def Subject.givePermissionTo (u : Subject) (x : POrN) (g : String)
    (freshId : String) (now : Nat) : Subject :=
  let perm := givePerm x g freshId now
  if u.hasPermission (Sum.inr perm.toEntity) g then u
  else { u with permissions := u.permissions ++ [perm] }

/-- `HasPermissionsTrait.revokePermissionTo` (lines 42-47). -/
def Subject.revokePermissionTo (u : Subject) (x : POrN) (g : String) : Subject :=
  { u with permissions := u.permissions.filter (fun p => !(p.name == pname x && p.guardName == g)) }

/-- The `permissions.forEach(p => this.givePermissionTo(p, guardName))` loop
of `syncPermissions`; each call draws its own generated id and date. -/
def Subject.giveAll : Subject → List POrN → String → (Nat → String) → (Nat → Nat) → Nat → Subject
  | u, [], _, _, _, _ => u
  | u, x :: xs, g, f, t, i => Subject.giveAll (u.givePermissionTo x g (f i) (t i)) xs g f t (i + 1)

/-- `HasPermissionsTrait.syncPermissions` (lines 49-55): drop every direct
permission of the target guard, then re-add the supplied ones via
`givePermissionTo`. -/
def Subject.syncPermissions (u : Subject) (ps : List POrN) (g : String)
    (f : Nat → String) (t : Nat → Nat) : Subject :=
  Subject.giveAll { u with permissions := u.permissions.filter (fun p => !(p.guardName == g)) }
    ps g f t 0

/-- `HasPermissionsTrait.getDirectPermissions` (lines 57-59). -/
def Subject.getDirectPermissions (u : Subject) (g : String) : List Permission :=
  u.permissions.filter (fun p => p.guardName == g)

/-- The `rolePermissions` local of `getAllPermissions` (lines 63-65):
`this.roles.flatMap(role => role.permissions?.filter(p => p.guardName ===
guardName) || [])`. -/
def Subject.rolePermissions (u : Subject) (g : String) : List Permission :=
  (u.roles.map (fun r => r.permissions.filter (fun p => p.guardName == g))).flatten

/-- `HasPermissionsTrait.getAllPermissions` (lines 61-75): concatenate
direct and role permissions for the guard, pour them into a name-keyed JS
`Map`, and return its values. -/
def Subject.getAllPermissions (u : Subject) (g : String) : List Permission :=
  let allPermissions := u.getDirectPermissions g ++ u.rolePermissions g
  (allPermissions.foldl (fun mp p => jsMapSet mp p.name p) []).map (fun e => e.2)

/-- `HasRolesTrait.removeRole` (src/unnamed/part_002): drop every assigned
role matching the given name and guard. -/
def Subject.removeRole (u : Subject) (x : String ⊕ IRole) (g : String) : Subject :=
  let n := match x with | Sum.inl s => s | Sum.inr r => r.name
  { u with roles := u.roles.filter (fun r => !(r.name == n && r.guardName == g)) }

/-- C1: `hasPermission(x, g)` is true iff a direct permission has the name
of `x` under guard `g`, or some assigned role — with no constraint on the
role's own guard tag — contains a permission with that name under guard
`g`; an entity argument is consulted only through its `name` field. -/
lemma hasPermission_iff_exists (u : Subject) (x : POrN) (g : String) :
    u.hasPermission x g = true ↔
      (∃ p ∈ u.permissions, p.name = pname x ∧ p.guardName = g) ∨
        ∃ r ∈ u.roles, ∃ p ∈ r.permissions, p.name = pname x ∧ p.guardName = g := by
  simp [Subject.hasPermission, List.any_eq_true, Bool.and_eq_true, beq_iff_eq]

theorem c1_hasPermission : ∀ (u : Subject) (x : POrN) (g : String),
    (u.hasPermission x g = true ↔
      (∃ p ∈ u.permissions, p.name = pname x ∧ p.guardName = g) ∨
        ∃ r ∈ u.roles, ∃ p ∈ r.permissions, p.name = pname x ∧ p.guardName = g) ∧
    ∀ e : IPerm, u.hasPermission (Sum.inr e) g = u.hasPermission (Sum.inl e.name) g := by
  intro u x g
  exact ⟨hasPermission_iff_exists u x g, fun e => rfl⟩

lemma jsOrS_some_empty_default (s : String) : jsOrS (some s) "" = s := by
  by_cases h : s = "" <;> simp [jsOrS, h]

lemma givePerm_name (x : POrN) (g f : String) (t : Nat) : (givePerm x g f t).name = pname x := by
  cases x <;> simp [givePerm, Permission.construct, IPerm.toData, pname, jsOrS_some_empty_default]

lemma givePerm_guard (x : POrN) (g f : String) (t : Nat) :
    (givePerm x g f t).guardName = giveGuard x g := by
  cases x <;> rfl

lemma hasPermission_inr_entity (u : Subject) (p : Permission) (g : String) :
    u.hasPermission (Sum.inr p.toEntity) g = u.hasPermission (Sum.inl p.name) g := rfl

lemma give_cond (u : Subject) (x : POrN) (g f : String) (t : Nat) :
    u.givePermissionTo x g f t =
      if u.hasPermission (Sum.inl (pname x)) g then u
      else { u with permissions := u.permissions ++ [givePerm x g f t] } := by
  simp only [Subject.givePermissionTo]
  rw [hasPermission_inr_entity, givePerm_name]

lemma hasPermission_push (u : Subject) (q : Permission) (n g : String) :
    Subject.hasPermission { u with permissions := u.permissions ++ [q] } (Sum.inl n) g =
      (u.hasPermission (Sum.inl n) g || (q.name == n && q.guardName == g)) := by
  simp only [Subject.hasPermission, List.any_append, List.any_cons, List.any_nil, pname,
    Bool.or_false]
  cases u.permissions.any fun p => p.name == n && p.guardName == g <;>
    cases q.name == n && q.guardName == g <;> simp

/-- C5 counterexample: on an empty subject, giving the same permission
entity tagged guard `"api"` to guard `"web"` twice inserts it twice — the
idempotence check queries guard `"web"` while the stored copy is tagged
`"api"`, so the second call pushes again. -/
theorem c5_counterexample :
    Subject.givePermissionTo
        (Subject.givePermissionTo ⟨[], []⟩ (Sum.inr ⟨"1", "p", some "api", none, none, none⟩)
          "web" "f1" 0)
        (Sum.inr ⟨"1", "p", some "api", none, none, none⟩) "web" "f2" 1 ≠
      Subject.givePermissionTo ⟨[], []⟩ (Sum.inr ⟨"1", "p", some "api", none, none, none⟩)
        "web" "f1" 0 := by
  decide

/-- C5 (amended): `givePermissionTo(x, g)` is idempotent whenever the
permission it constructs is actually tagged with guard `g` — always the
case for a string argument with nonempty `g`, and for an entity whose own
(defaulted) `guardName` equals `g`.  An entity tagged with a different
guard is re-inserted on every call. -/
theorem c5_give_amended : ∀ (u : Subject) (x : POrN) (g f1 f2 : String) (t1 t2 : Nat),
    giveGuard x g = g →
    Subject.givePermissionTo (Subject.givePermissionTo u x g f1 t1) x g f2 t2 =
      Subject.givePermissionTo u x g f1 t1 := by
  intro u x g f1 f2 t1 t2 hg
  cases hb : u.hasPermission (Sum.inl (pname x)) g with
  | true => simp [give_cond, hb]
  | false =>
    have h1 : u.givePermissionTo x g f1 t1 =
        { u with permissions := u.permissions ++ [givePerm x g f1 t1] } := by
      simp [give_cond, hb]
    have h2 : Subject.hasPermission { u with permissions := u.permissions ++ [givePerm x g f1 t1] }
        (Sum.inl (pname x)) g = true := by
      rw [hasPermission_push, givePerm_name, givePerm_guard, hg]
      simp
    rw [h1, give_cond, h2]
    simp

/-- C5 witness for the amended idempotence at a concrete string input. -/
theorem c5_witness :
    Subject.givePermissionTo (Subject.givePermissionTo ⟨[], []⟩ (Sum.inl "edit") "web" "a" 0)
        (Sum.inl "edit") "web" "b" 1 =
      Subject.givePermissionTo ⟨[], []⟩ (Sum.inl "edit") "web" "a" 0 :=
  c5_give_amended ⟨[], []⟩ (Sum.inl "edit") "web" "a" "b" 0 1 (by decide)

lemma filter_guard_after_drop_same (l : List Permission) (g : String) :
    (l.filter (fun p => !(p.guardName == g))).filter (fun p => p.guardName == g) = [] := by
  induction l with
  | nil => rfl
  | cons p t ih => by_cases h : p.guardName = g <;> simp [List.filter_cons, h, ih]

lemma filter_guard_after_drop_other (l : List Permission) (g1 g2 : String) (h : g1 ≠ g2) :
    (l.filter (fun p => !(p.guardName == g2))).filter (fun p => p.guardName == g1) =
      l.filter (fun p => p.guardName == g1) := by
  induction l with
  | nil => rfl
  | cons p t ih =>
    by_cases h1 : p.guardName = g1
    · have h2 : ¬ p.guardName = g2 := by rw [h1]; exact h
      simp [List.filter_cons, h1, h2, ih, h]
    · by_cases h2 : p.guardName = g2 <;> simp [List.filter_cons, h1, h2, ih, h, Ne.symm h]

lemma getDirect_give_other (u : Subject) (x : POrN) (g1 g2 f : String) (t : Nat)
    (h : giveGuard x g2 ≠ g1) :
    (u.givePermissionTo x g2 f t).getDirectPermissions g1 = u.getDirectPermissions g1 := by
  rw [give_cond]
  by_cases hc : u.hasPermission (Sum.inl (pname x)) g2 = true
  · simp [hc]
  · simp only [hc, if_false, Bool.false_eq_true]
    simp [Subject.getDirectPermissions, List.filter_append, List.filter_cons, givePerm_guard, h]

lemma getDirect_giveAll_other (g1 g2 : String) (f : Nat → String) (t : Nat → Nat) :
    ∀ (ps : List POrN) (u : Subject) (i : Nat), (∀ x ∈ ps, giveGuard x g2 ≠ g1) →
      (Subject.giveAll u ps g2 f t i).getDirectPermissions g1 = u.getDirectPermissions g1 := by
  intro ps
  induction ps with
  | nil => intro u i _; rfl
  | cons x xs ih =>
    intro u i h
    simp only [Subject.giveAll]
    rw [ih _ (i + 1) (fun y hy => h y (List.mem_cons_of_mem x hy)),
      getDirect_give_other u x g1 g2 (f i) (t i) (h x (List.mem_cons_self x xs))]

/-- C4 counterexample: a subject holds A under guard `"web"` and B under
guard `"api"`; syncing guard `"api"` with a single permission *entity*
tagged guard `"web"` changes the `"web"` partition (the entity is inserted
with its own guard tag), refuting the claim that permissions of the other
guard are left unchanged by `syncPermissions(ps, g2)` for every supplied
set. -/
theorem c4_counterexample :
    Subject.getDirectPermissions
        (Subject.syncPermissions
          ⟨[⟨"a", "A", "web", none, 0, 0⟩, ⟨"b", "B", "api", none, 0, 0⟩], []⟩
          [Sum.inr ⟨"e", "X", some "web", none, none, none⟩] "api"
          (fun _ => "f") (fun _ => 0)) "web" ≠
      Subject.getDirectPermissions
        ⟨[⟨"a", "A", "web", none, 0, 0⟩, ⟨"b", "B", "api", none, 0, 0⟩], []⟩ "web" := by
  decide

/-- C4 (amended): `syncPermissions(ps, g2)` leaves the direct permissions
of a different guard `g1` unchanged provided no supplied element constructs
a permission tagged `g1` (a string constructs one tagged `g2`, defaulted to
`"web"` when `g2` is empty; an entity keeps its own defaulted guard tag);
and syncing the empty set leaves the `g2` partition empty, so for a subject
holding A under `"web"` and B under `"api"`, `syncPermissions([], "api")`
removes B and leaves A untouched. -/
theorem c4_sync_amended :
    (∀ (u : Subject) (ps : List POrN) (g1 g2 : String) (f : Nat → String) (t : Nat → Nat),
      g1 ≠ g2 → (∀ x ∈ ps, giveGuard x g2 ≠ g1) →
      (u.syncPermissions ps g2 f t).getDirectPermissions g1 = u.getDirectPermissions g1) ∧
    ∀ (u : Subject) (g2 : String) (f : Nat → String) (t : Nat → Nat),
      (u.syncPermissions [] g2 f t).getDirectPermissions g2 = [] := by
  constructor
  · intro u ps g1 g2 f t hne h
    rw [Subject.syncPermissions, getDirect_giveAll_other g1 g2 f t ps _ 0 h]
    exact filter_guard_after_drop_other u.permissions g1 g2 hne
  · intro u g2 f t
    rw [Subject.syncPermissions]
    exact filter_guard_after_drop_same u.permissions g2

/-- C4 witness: the A/B scenario of the claim — `syncPermissions([],
"api")` removes B under `"api"` and leaves A under `"web"` untouched. -/
theorem c4_witness :
    Subject.getDirectPermissions
        (Subject.syncPermissions
          ⟨[⟨"a", "A", "web", none, 0, 0⟩, ⟨"b", "B", "api", none, 0, 0⟩], []⟩ [] "api"
          (fun _ => "f") (fun _ => 0)) "web" =
      Subject.getDirectPermissions
        ⟨[⟨"a", "A", "web", none, 0, 0⟩, ⟨"b", "B", "api", none, 0, 0⟩], []⟩ "web" ∧
    Subject.getDirectPermissions
        (Subject.syncPermissions
          ⟨[⟨"a", "A", "web", none, 0, 0⟩, ⟨"b", "B", "api", none, 0, 0⟩], []⟩ [] "api"
          (fun _ => "f") (fun _ => 0)) "api" = [] :=
  ⟨c4_sync_amended.1 _ [] "web" "api" _ _ (by decide) (by intro x hx; cases hx),
    c4_sync_amended.2 _ "api" _ _⟩

lemma any_name_guard_after_drop (l : List Permission) (n g : String) :
    (l.filter (fun p => !(p.guardName == g))).any (fun p => p.name == n && p.guardName == g) =
      false := by
  induction l with
  | nil => rfl
  | cons p t ih => by_cases h : p.guardName = g <;> simp [List.filter_cons, h, ih]

/-- C10: when an assigned role already carries a permission named `n` under
guard `g`, `givePermissionTo(n, g)` changes nothing (the idempotence check
consults role-inherited permissions too), syncing `[n]` for guard `g` ends
with zero direct permissions of guard `g`, and removing the role afterwards
makes `hasPermission(n, g)` false. -/
theorem c10_role_inherited_give : ∀ (u : Subject) (n g f : String) (t : Nat)
    (fs : Nat → String) (ts : Nat → Nat) (r : Role),
    u.roles = [r] →
    (∃ p ∈ r.permissions, p.name = n ∧ p.guardName = g) →
    u.givePermissionTo (Sum.inl n) g f t = u ∧
    (u.syncPermissions [Sum.inl n] g fs ts).getDirectPermissions g = [] ∧
    Subject.hasPermission
        ((u.syncPermissions [Sum.inl n] g fs ts).removeRole (Sum.inl r.name) r.guardName)
        (Sum.inl n) g = false := by
  intro u n g f t fs ts r hroles hperm
  have hrole_has : ∀ perms : List Permission,
      Subject.hasPermission ⟨perms, u.roles⟩ (Sum.inl n) g = true := by
    intro perms
    apply (hasPermission_iff_exists _ _ _).mpr
    exact Or.inr ⟨r, by simp [hroles], hperm⟩
  have hsync : u.syncPermissions [Sum.inl n] g fs ts =
      { u with permissions := u.permissions.filter (fun p => !(p.guardName == g)) } := by
    simp only [Subject.syncPermissions, Subject.giveAll]
    rw [give_cond]
    have hc := hrole_has (u.permissions.filter (fun p => !(p.guardName == g)))
    simp only [pname] at hc ⊢
    simp [hc]
  refine ⟨?_, ?_, ?_⟩
  · rw [give_cond]
    have hc := hrole_has u.permissions
    simp only [pname] at hc ⊢
    simp [hc]
  · rw [hsync]
    exact filter_guard_after_drop_same u.permissions g
  · rw [hsync]
    simp only [Subject.removeRole, hroles]
    simp [Subject.hasPermission, pname, any_name_guard_after_drop, List.filter_cons]
    exact fun x _ hx _ => hx

/-- A role holding the permission ("edit", guard "web"), for the C10
witness. -/
def rC10 : Role := ⟨"rid", "admin", "web", none, [⟨"pid", "edit", "web", none, 0, 0⟩], 0, 0⟩

/-- A subject with no direct permissions and the single role `rC10`. -/
def uC10 : Subject := ⟨[], [rC10]⟩

/-- C10 witness at a concrete subject, role and permission name. -/
theorem c10_witness :
    Subject.givePermissionTo uC10 (Sum.inl "edit") "web" "f" 0 = uC10 ∧
    (Subject.syncPermissions uC10 [Sum.inl "edit"] "web" (fun _ => "s") (fun _ => 1)).getDirectPermissions
        "web" = [] ∧
    Subject.hasPermission
        ((Subject.syncPermissions uC10 [Sum.inl "edit"] "web" (fun _ => "s")
            (fun _ => 1)).removeRole (Sum.inl rC10.name) rC10.guardName)
        (Sum.inl "edit") "web" = false :=
  c10_role_inherited_give uC10 "edit" "web" "f" 0 (fun _ => "s") (fun _ => 1) rC10 rfl
    (by decide)

/-- The last element of `l` whose `name` is `k` — the value a name-keyed JS
`Map` retains for key `k` after inserting the whole list in order. -/
def lastNamed : List Permission → String → Option Permission
  | [], _ => none
  | p :: rest, k =>
    match lastNamed rest k with
    | some q => some q
    | none => if p.name = k then some p else none

lemma find?_jsMapSet_self {α : Type} (m : List (String × α)) (k : String) (v : α) :
    (jsMapSet m k v).find? (fun e => e.1 == k) = some (k, v) := by
  induction m with
  | nil => simp [jsMapSet]
  | cons e rest ih => by_cases h : e.1 = k <;> simp [jsMapSet, h, List.find?_cons, ih]

lemma find?_jsMapSet_other {α : Type} (m : List (String × α)) (k k' : String) (v : α)
    (h : k' ≠ k) :
    (jsMapSet m k v).find? (fun e => e.1 == k') = m.find? (fun e => e.1 == k') := by
  induction m with
  | nil => simp [jsMapSet, Ne.symm h]
  | cons e rest ih =>
    by_cases he : e.1 = k
    · simp [jsMapSet, he, List.find?_cons, Ne.symm h]
    · simp only [jsMapSet, he, if_false]
      rw [List.find?_cons, List.find?_cons]
      cases hc : (e.1 == k') <;> simp [hc, ih]

lemma mem_keys_jsMapSet {α : Type} (m : List (String × α)) (k a : String) (v : α) :
    a ∈ (jsMapSet m k v).map Prod.fst ↔ a = k ∨ a ∈ m.map Prod.fst := by
  induction m with
  | nil => simp [jsMapSet]
  | cons e rest ih =>
    by_cases h : e.1 = k
    · simp only [jsMapSet, h, if_true, List.map_cons, List.mem_cons]
      tauto
    · simp only [jsMapSet, h, if_false, List.map_cons, List.mem_cons, ih]
      tauto

lemma nodup_keys_jsMapSet {α : Type} (m : List (String × α)) (k : String) (v : α)
    (h : (m.map Prod.fst).Nodup) : ((jsMapSet m k v).map Prod.fst).Nodup := by
  induction m with
  | nil => simp [jsMapSet]
  | cons e rest ih =>
    simp only [List.map_cons, List.nodup_cons] at h
    by_cases he : e.1 = k
    · simp only [jsMapSet, he, if_true, List.map_cons, List.nodup_cons]
      exact ⟨he ▸ h.1, h.2⟩
    · simp only [jsMapSet, he, if_false, List.map_cons, List.nodup_cons]
      refine ⟨?_, ih h.2⟩
      rw [mem_keys_jsMapSet]
      push_neg
      exact ⟨he, h.1⟩

lemma mem_jsMapSet {α : Type} (m : List (String × α)) (k : String) (v : α) :
    ∀ e ∈ jsMapSet m k v, e ∈ m ∨ e = (k, v) := by
  induction m with
  | nil => simp [jsMapSet]
  | cons e0 rest ih =>
    intro e he
    by_cases h : e0.1 = k
    · simp only [jsMapSet, h, if_true, List.mem_cons] at he
      rcases he with he | he
      · right; exact he
      · left; exact List.mem_cons_of_mem e0 he
    · simp only [jsMapSet, h, if_false, List.mem_cons] at he
      rcases he with he | he
      · left; simp [he]
      · rcases ih e he with h1 | h1
        · left; exact List.mem_cons_of_mem e0 h1
        · right; exact h1

lemma foldPerm_find? (k : String) :
    ∀ (l : List Permission) (m : List (String × Permission)),
      (l.foldl (fun mp p => jsMapSet mp p.name p) m).find? (fun e => e.1 == k) =
        match lastNamed l k with
        | some q => some (k, q)
        | none => m.find? (fun e => e.1 == k) := by
  intro l
  induction l with
  | nil => intro m; simp [lastNamed]
  | cons p t ih =>
    intro m
    rw [List.foldl_cons, ih]
    cases hlt : lastNamed t k with
    | some q => simp [lastNamed, hlt]
    | none =>
      by_cases hp : p.name = k
      · subst hp
        simp [lastNamed, hlt, find?_jsMapSet_self]
      · simp [lastNamed, hlt, hp, find?_jsMapSet_other m p.name k p (Ne.symm hp)]

lemma foldPerm_keys (k : String) :
    ∀ (l : List Permission) (m : List (String × Permission)),
      k ∈ (l.foldl (fun mp p => jsMapSet mp p.name p) m).map Prod.fst ↔
        k ∈ m.map Prod.fst ∨ k ∈ l.map Permission.name := by
  intro l
  induction l with
  | nil => intro m; simp
  | cons p t ih =>
    intro m
    rw [List.foldl_cons, ih, mem_keys_jsMapSet]
    simp
    tauto

lemma foldPerm_nodup :
    ∀ (l : List Permission) (m : List (String × Permission)),
      (m.map Prod.fst).Nodup →
      ((l.foldl (fun mp p => jsMapSet mp p.name p) m).map Prod.fst).Nodup := by
  intro l
  induction l with
  | nil => intro m h; exact h
  | cons p t ih =>
    intro m h
    rw [List.foldl_cons]
    exact ih _ (nodup_keys_jsMapSet m p.name p h)

lemma foldPerm_inv :
    ∀ (l : List Permission) (m : List (String × Permission)),
      (∀ e ∈ m, e.2.name = e.1) →
      ∀ e ∈ l.foldl (fun mp p => jsMapSet mp p.name p) m, e.2.name = e.1 := by
  intro l
  induction l with
  | nil => intro m h; exact h
  | cons p t ih =>
    intro m h
    rw [List.foldl_cons]
    refine ih _ ?_
    intro e he
    rcases mem_jsMapSet m p.name p e he with h1 | h1
    · exact h e h1
    · simp [h1]

lemma find?_map_snd (k : String) :
    ∀ (l : List (String × Permission)), (∀ e ∈ l, e.2.name = e.1) →
      (l.map Prod.snd).find? (fun p => p.name == k) =
        Option.map Prod.snd (l.find? (fun e => e.1 == k)) := by
  intro l
  induction l with
  | nil => intro _; rfl
  | cons e t ih =>
    intro h
    have he : e.2.name = e.1 := h e (List.mem_cons_self e t)
    rw [List.map_cons, List.find?_cons, List.find?_cons, he]
    cases hc : (e.1 == k) with
    | true => rfl
    | false => exact ih (fun e' he' => h e' (List.mem_cons_of_mem e he'))

lemma lastNamed_append (a b : List Permission) (k : String) :
    lastNamed (a ++ b) k =
      match lastNamed b k with
      | some q => some q
      | none => lastNamed a k := by
  induction a with
  | nil => simp [lastNamed]; cases lastNamed b k <;> rfl
  | cons p a' ih =>
    rw [List.cons_append]
    show (match lastNamed (a' ++ b) k with
      | some q => some q
      | none => if p.name = k then some p else none) = _
    rw [ih]
    cases hb : lastNamed b k with
    | some q => rfl
    | none =>
      show _ = (match lastNamed a' k with
        | some q => some q
        | none => if p.name = k then some p else none)
      cases lastNamed a' k <;> rfl

lemma lastNamed_mem (l : List Permission) (k : String) (q : Permission)
    (h : lastNamed l k = some q) : q ∈ l ∧ q.name = k := by
  induction l with
  | nil => cases h
  | cons p t ih =>
    by_cases ht : (lastNamed t k).isSome
    · rcases Option.isSome_iff_exists.mp ht with ⟨q', hq'⟩
      rw [show lastNamed (p :: t) k = some q' by simp [lastNamed, hq']] at h
      obtain rfl : q' = q := by injection h
      rcases ih hq' with ⟨h1, h2⟩
      exact ⟨List.mem_cons_of_mem p h1, h2⟩
    · rw [Option.not_isSome_iff_eq_none] at ht
      rw [show lastNamed (p :: t) k = if p.name = k then some p else none by
        simp [lastNamed, ht]] at h
      by_cases hp : p.name = k
      · rw [if_pos hp] at h
        obtain rfl : p = q := by injection h
        exact ⟨List.mem_cons_self p t, hp⟩
      · rw [if_neg hp] at h
        cases h

/-- C3: `getAllPermissions(g)` is the name-deduplicated union of the
guard-`g` direct permissions and the guard-`g` permissions of all assigned
roles: its name set is exactly that of the concatenation (direct first,
role permissions after), its names are pairwise distinct, and the entry
retained for a name also carried by some role permission is the last such
role permission entity (so a role permission overwrites a same-named direct
permission in the returned list). -/
theorem c3_getAllPermissions : ∀ (u : Subject) (g : String),
    (∀ nm, nm ∈ (u.getAllPermissions g).map Permission.name ↔
      nm ∈ (u.getDirectPermissions g ++ u.rolePermissions g).map Permission.name) ∧
    ((u.getAllPermissions g).map Permission.name).Nodup ∧
    ∀ nm q, lastNamed (u.rolePermissions g) nm = some q →
      (u.getAllPermissions g).find? (fun p => p.name == nm) = some q ∧
        q ∈ u.rolePermissions g := by
  intro u g
  have hL : u.getAllPermissions g =
      ((u.getDirectPermissions g ++ u.rolePermissions g).foldl
        (fun mp p => jsMapSet mp p.name p) []).map Prod.snd := rfl
  have hinv : ∀ e ∈ (u.getDirectPermissions g ++ u.rolePermissions g).foldl
      (fun mp p => jsMapSet mp p.name p) [], e.2.name = e.1 :=
    foldPerm_inv _ [] (by simp)
  have hnames : (u.getAllPermissions g).map Permission.name =
      ((u.getDirectPermissions g ++ u.rolePermissions g).foldl
        (fun mp p => jsMapSet mp p.name p) []).map Prod.fst := by
    rw [hL, List.map_map]
    exact List.map_congr_left hinv
  refine ⟨?_, ?_, ?_⟩
  · intro nm
    rw [hnames, foldPerm_keys nm _ []]
    simp
  · rw [hnames]
    exact foldPerm_nodup _ [] (by simp)
  · intro nm q hln
    have hmem := lastNamed_mem _ _ _ hln
    refine ⟨?_, hmem.1⟩
    rw [hL, find?_map_snd nm _ hinv, foldPerm_find? nm _ []]
    have hall : lastNamed (u.getDirectPermissions g ++ u.rolePermissions g) nm = some q := by
      rw [lastNamed_append, hln]
    rw [hall]
    rfl

/-- A subject with a direct permission named "x" and a role also holding a
permission named "x" (both guard "web"), for the C3 witness. -/
def uC3 : Subject :=
  ⟨[⟨"d", "x", "web", none, 0, 0⟩],
    [⟨"rid", "admin", "web", none, [⟨"r1", "x", "web", none, 0, 0⟩], 0, 0⟩]⟩

/-- The role-held permission entity named "x" of `uC3`. -/
def qC3 : Permission := ⟨"r1", "x", "web", none, 0, 0⟩

/-- C3 witness: on `uC3` the merged view has distinct names and retains the
role's entity for the shared name "x". -/
theorem c3_witness :
    ((uC3.getAllPermissions "web").map Permission.name).Nodup ∧
    (uC3.getAllPermissions "web").find? (fun p => p.name == "x") = some qC3 ∧
    qC3 ∈ uC3.rolePermissions "web" :=
  ⟨(c3_getAllPermissions uC3 "web").2.1,
    ((c3_getAllPermissions uC3 "web").2.2 "x" qC3 (by decide)).1,
    ((c3_getAllPermissions uC3 "web").2.2 "x" qC3 (by decide)).2⟩

/-- Invariants every constructor-produced `Permission` satisfies (given a
nonempty generated id): nonempty id and guard, and a description already in
`|| undefined` normal form. -/
def Permission.Normalized (p : Permission) : Prop :=
  p.id ≠ "" ∧ p.guardName ≠ "" ∧ jsOrNone p.description = p.description

instance (p : Permission) : Decidable p.Normalized := by
  unfold Permission.Normalized
  infer_instance

lemma jsOrS_some_ne (s d : String) (h : s ≠ "") : jsOrS (some s) d = s := by
  simp [jsOrS, h]

lemma jsOrS_ne_empty (o : Option String) (d : String) (hd : d ≠ "") : jsOrS o d ≠ "" := by
  cases o with
  | none => exact hd
  | some s => by_cases h : s = "" <;> simp [jsOrS, h, hd]

lemma jsOrNone_idem (o : Option String) : jsOrNone (jsOrNone o) = jsOrNone o := by
  cases o with
  | none => rfl
  | some s => by_cases h : s = "" <;> simp [jsOrNone, h]

lemma construct_normalized (d : PermissionData) (f : String) (n : Nat) (hf : f ≠ "") :
    (Permission.construct d f n).Normalized :=
  ⟨jsOrS_ne_empty d.id f hf, jsOrS_ne_empty d.guardName "web" (by decide),
    jsOrNone_idem d.description⟩

lemma perm_roundtrip (p : Permission) (f : String) (n : Nat) (h : p.Normalized) :
    Permission.fromJSON p.toJSON f n = p := by
  obtain ⟨h1, h2, h3⟩ := h
  cases p with
  | mk pid pn pg pd pc pu =>
    simp only [Permission.Normalized] at h1 h2 h3
    simp [Permission.fromJSON, Permission.toJSON, Permission.construct, IPerm.toData,
      jsOrS_some_ne _ _ h1, jsOrS_some_ne _ _ h2, jsOrS_some_empty_default, jsOrNone_idem, h3]

lemma permission_equals_refl (p : Permission) : p.equals p = true := by
  simp [Permission.equals]

lemma role_equals_refl (r : Role) : r.equals r = true := by
  simp [Role.equals]

lemma buildPerms_normalized :
    ∀ (l : List (Permission ⊕ IPerm)) (fp : Nat → String) (np : Nat → Nat) (i : Nat),
      (∀ p, Sum.inl p ∈ l → p.Normalized) → (∀ j, fp j ≠ "") →
      ∀ q ∈ buildPerms l fp np i, q.Normalized := by
  intro l
  induction l with
  | nil => intro fp np i _ _ q hq; cases hq
  | cons x rest ih =>
    intro fp np i hl hfp q hq
    cases x with
    | inl p =>
      rcases List.mem_cons.mp hq with h | h
      · exact h ▸ hl p (List.mem_cons_self _ _)
      · exact ih fp np (i + 1) (fun p' hp' => hl p' (List.mem_cons_of_mem _ hp')) hfp q h
    | inr d =>
      rcases List.mem_cons.mp hq with h | h
      · exact h ▸ construct_normalized d.toData (fp i) (np i) (hfp i)
      · exact ih fp np (i + 1) (fun p' hp' => hl p' (List.mem_cons_of_mem _ hp')) hfp q h

lemma buildPerms_roundtrip :
    ∀ (l : List Permission) (fp2 : Nat → String) (np2 : Nat → Nat) (i : Nat),
      (∀ q ∈ l, q.Normalized) →
      buildPerms ((l.map Permission.toJSON).map Sum.inr) fp2 np2 i = l := by
  intro l
  induction l with
  | nil => intro fp2 np2 i _; rfl
  | cons p t ih =>
    intro fp2 np2 i hl
    simp only [List.map_cons, buildPerms]
    rw [show Permission.construct (Permission.toJSON p).toData (fp2 i) (np2 i) =
        Permission.fromJSON p.toJSON (fp2 i) (np2 i) from rfl]
    rw [perm_roundtrip p _ _ (hl p (List.mem_cons_self _ _)),
      ih fp2 np2 (i + 1) (fun q hq => hl q (List.mem_cons_of_mem _ hq))]

/-- Invariants every constructor-produced `Role` (with nonempty generated
ids) satisfies. -/
def Role.Normalized (r : Role) : Prop :=
  r.id ≠ "" ∧ r.guardName ≠ "" ∧ jsOrNone r.description = r.description ∧
    ∀ q ∈ r.permissions, q.Normalized

lemma role_construct_normalized (d : RoleData) (f : String) (n : Nat)
    (fp : Nat → String) (np : Nat → Nat) (hf : f ≠ "") (hfp : ∀ j, fp j ≠ "")
    (hl : ∀ p, Sum.inl p ∈ d.permissions.getD [] → p.Normalized) :
    (Role.construct d f n fp np).Normalized :=
  ⟨jsOrS_ne_empty d.id f hf, jsOrS_ne_empty d.guardName "web" (by decide),
    jsOrNone_idem d.description,
    buildPerms_normalized (d.permissions.getD []) fp np 0 hl hfp⟩

lemma role_roundtrip (r : Role) (f2 : String) (n2 : Nat) (fp2 : Nat → String)
    (np2 : Nat → Nat) (h : r.Normalized) : Role.fromJSON r.toJSON f2 n2 fp2 np2 = r := by
  obtain ⟨h1, h2, h3, h4⟩ := h
  cases r with
  | mk rid rn rg rd rperms rc ru =>
    have hb : buildPerms (List.map (Sum.inr ∘ Permission.toJSON) rperms) fp2 np2 0 = rperms := by
      rw [← List.map_map]
      exact buildPerms_roundtrip rperms fp2 np2 0 h4
    simp only [Role.fromJSON, Role.toJSON, Role.construct, IRole.toData, Option.map_some,
      Option.getD_some]
    simp [jsOrS_some_ne _ _ h1, jsOrS_some_ne _ _ h2, jsOrS_some_empty_default,
      jsOrNone_idem, h3, hb]

/-- C7: serialization round-trips.  For every constructed Permission (with
a nonempty generated id — `generateId` returns a nonempty random string),
`fromJSON(toJSON(p))` is structurally identical to `p` (hence
`equals`-equal, with description and both timestamps reproduced); for every
constructed Role whose passed-in `Permission` instances are themselves
constructor-produced, `fromJSON(toJSON(r))` is structurally identical to
`r`, `equals`-equal and with the nested permission list reproduced
exactly. -/
theorem c7_roundtrip :
    (∀ (d : PermissionData) (f : String) (n : Nat) (f2 : String) (n2 : Nat), f ≠ "" →
      Permission.fromJSON (Permission.construct d f n).toJSON f2 n2 =
          Permission.construct d f n ∧
        Permission.equals (Permission.fromJSON (Permission.construct d f n).toJSON f2 n2)
          (Permission.construct d f n) = true) ∧
    ∀ (rd : RoleData) (f : String) (n : Nat) (fp : Nat → String) (np : Nat → Nat)
      (f2 : String) (n2 : Nat) (fp2 : Nat → String) (np2 : Nat → Nat),
      f ≠ "" → (∀ j, fp j ≠ "") →
      (∀ p, Sum.inl p ∈ rd.permissions.getD [] → p.Normalized) →
      Role.fromJSON (Role.construct rd f n fp np).toJSON f2 n2 fp2 np2 =
          Role.construct rd f n fp np ∧
        Role.equals (Role.fromJSON (Role.construct rd f n fp np).toJSON f2 n2 fp2 np2)
          (Role.construct rd f n fp np) = true ∧
        (Role.fromJSON (Role.construct rd f n fp np).toJSON f2 n2 fp2 np2).permissions =
          (Role.construct rd f n fp np).permissions := by
  constructor
  · intro d f n f2 n2 hf
    have h := perm_roundtrip (Permission.construct d f n) f2 n2 (construct_normalized d f n hf)
    exact ⟨h, by rw [h]; exact permission_equals_refl _⟩
  · intro rd f n fp np f2 n2 fp2 np2 hf hfp hl
    have h := role_roundtrip (Role.construct rd f n fp np) f2 n2 fp2 np2
      (role_construct_normalized rd f n fp np hf hfp hl)
    exact ⟨h, by rw [h]; exact role_equals_refl _, by rw [h]⟩

/-- Concrete Permission constructor input for the C7 witness. -/
def dC7 : PermissionData := ⟨some "pid", some "edit", none, some "desc", some 3, none⟩

/-- Concrete Role constructor input for the C7 witness: one nested
`Permission` instance and one nested plain permission record. -/
def rdC7 : RoleData :=
  ⟨none, some "admin", some "api", none,
    some [Sum.inl ⟨"i1", "a", "web", none, 1, 2⟩, Sum.inr ⟨"i2", "b", some "api", none, none, none⟩],
    some 4, some 5⟩

/-- C7 witness: the round trip at concrete constructor inputs. -/
theorem c7_witness :
    Permission.fromJSON (Permission.construct dC7 "g1" 9).toJSON "g2" 10 =
        Permission.construct dC7 "g1" 9 ∧
    Role.fromJSON (Role.construct rdC7 "rf" 5 (fun _ => "z") (fun _ => 7)).toJSON "rf2" 6
        (fun _ => "y") (fun _ => 8) = Role.construct rdC7 "rf" 5 (fun _ => "z") (fun _ => 7) :=
  ⟨(c7_roundtrip.1 dC7 "g1" 9 "g2" 10 (by decide)).1,
    (c7_roundtrip.2 rdC7 "rf" 5 (fun _ => "z") (fun _ => 7) "rf2" 6 (fun _ => "y") (fun _ => 8)
      (by decide) (by intro j; exact (by decide : ("z" : String) ≠ ""))
      (by intro p hp; simp [rdC7] at hp; subst hp; decide)).1⟩

/-- A `Guard` object (src/guards/Guard.ts): a named registry of permissions
and roles. -/
structure Guard where
  name : String
  permissions : List Permission
  roles : List Role
deriving DecidableEq

/-- `Guard.addPermission` for a `Permission` instance (the branch exercised
by the manager): push unless an `equals`-equal permission is present. -/
def Guard.addPermission (gd : Guard) (p : Permission) : Guard :=
  if gd.permissions.any (fun q => q.equals p) then gd
  else { gd with permissions := gd.permissions ++ [p] }

/-- `Guard.addRole` for a `Role` instance: push unless an `equals`-equal
role is present. -/
def Guard.addRole (gd : Guard) (r : Role) : Guard :=
  if gd.roles.any (fun q => q.equals r) then gd
  else { gd with roles := gd.roles ++ [r] }

/-- `Guard.getPermission`: first permission with the given name, if any. -/
def Guard.getPermission (gd : Guard) (n : String) : Option Permission :=
  gd.permissions.find? (fun p => p.name == n)

/-- `Guard.getRole`: first role with the given name, if any. -/
def Guard.getRole (gd : Guard) (n : String) : Option Role :=
  gd.roles.find? (fun r => r.name == n)

/-- The three named failures of src/exceptions/PermissionException.ts, each
carrying the missing identifier. -/
inductive PermError where
  | guardNotFound (name : String)
  | permissionNotFound (name : String)
  | roleNotFound (name : String)
deriving DecidableEq

/-- The manager configuration after the constructor's defaulting spread. -/
structure Config where
  cacheEnabled : Bool
  cacheTtl : Nat
  defaultGuard : String
deriving DecidableEq

/-- A user-supplied (possibly incomplete) `PermissionManagerConfig`. -/
structure ConfigIn where
  cacheEnabled : Option Bool
  cacheTtl : Option Nat
  defaultGuard : Option String

/-- `{ cacheEnabled: false, cacheTtl: 3600, defaultGuard: 'web', ...config }`
(src/unnamed/part_003, lines 122-127). -/
def mergeConfig (c : ConfigIn) : Config :=
  ⟨c.cacheEnabled.getD false, c.cacheTtl.getD 3600, c.defaultGuard.getD "web"⟩

/-- A full config viewed as constructor input (every property present). -/
def Config.toIn (c : Config) : ConfigIn :=
  ⟨some c.cacheEnabled, some c.cacheTtl, some c.defaultGuard⟩

/-- The `string | IRole` union used by the role-side operations. -/
abbrev RorN : Type := String ⊕ IRole

/-- `typeof role === 'string' ? role : role.name`. -/
def rname (x : RorN) : String :=
  match x with
  | Sum.inl s => s
  | Sum.inr r => r.name

/-- An external subject as the manager sees it (the `PermissionUser`
contract): only its `hasPermission` / `hasRole` behaviour matters to the
manager. -/
structure PermissionUser where
  hasPermission : POrN → String → Bool
  hasRole : RorN → String → Bool

/-- The `PermissionCheck` callback type `(user, permission, guardName) =>
boolean`. -/
abbrev PermissionCheck : Type := PermissionUser → String → String → Bool

/-- The `RoleCheck` callback type. -/
abbrev RoleCheck : Type := PermissionUser → String → String → Bool

/-- The observable state of a `PermissionManager`: its guards map, merged
config and the two custom-check registries (the optional repository, cache
and event collaborators do not affect the state modelled here). -/
structure PermissionManager where
  guards : List (String × Guard)
  config : Config
  customPermissionChecks : List (String × PermissionCheck)
  customRoleChecks : List (String × RoleCheck)

/-- `createGuard` (lines 140-144): always registers a fresh guard under the
name, overwriting an existing one. -/
def PermissionManager.createGuard (m : PermissionManager) (n : String) :
    Guard × PermissionManager :=
  (⟨n, [], []⟩, { m with guards := jsMapSet m.guards n ⟨n, [], []⟩ })

/-- `getGuard` (lines 146-152): the guard, or `GuardNotFoundException`. -/
def PermissionManager.getGuard (m : PermissionManager) (n : String) : Except PermError Guard :=
  match List.lookup n m.guards with
  | some gd => .ok gd
  | none => .error (.guardNotFound n)

/-- `getDefaultGuard` (lines 154-156). -/
def PermissionManager.getDefaultGuard (m : PermissionManager) : Except PermError Guard :=
  m.getGuard m.config.defaultGuard

/-- `createPermission` (lines 158-163): resolve the guard via
`guardName || defaultGuard`, construct a permission tagged with the guard's
name, register it into the guard. -/
def PermissionManager.createPermission (m : PermissionManager) (n : String) (g : Option String)
    (freshId : String) (now : Nat) : Except PermError (Permission × PermissionManager) := do
  let k := jsOrS g m.config.defaultGuard
  let gd ← m.getGuard k
  let p := Permission.construct ⟨none, some n, some gd.name, none, none, none⟩ freshId now
  pure (p, { m with guards := jsMapSet m.guards k (gd.addPermission p) })

/-- `createRole` (lines 165-170); the role's permission list is empty, so
the per-element id/date draws of the `Role` constructor are vacuous and
passed as constants. -/
def PermissionManager.createRole (m : PermissionManager) (n : String) (g : Option String)
    (freshId : String) (now : Nat) : Except PermError (Role × PermissionManager) := do
  let k := jsOrS g m.config.defaultGuard
  let gd ← m.getGuard k
  let r := Role.construct ⟨none, some n, some gd.name, none, none, none, none⟩ freshId now
    (fun _ => "") (fun _ => 0)
  pure (r, { m with guards := jsMapSet m.guards k (gd.addRole r) })

/-- `getPermission` (lines 172-179). -/
def PermissionManager.getPermission (m : PermissionManager) (n : String) (g : Option String) :
    Except PermError Permission := do
  let gd ← m.getGuard (jsOrS g m.config.defaultGuard)
  match gd.getPermission n with
  | some p => pure p
  | none => throw (.permissionNotFound n)

/-- `getRole` (lines 181-188). -/
def PermissionManager.getRole (m : PermissionManager) (n : String) (g : Option String) :
    Except PermError Role := do
  let gd ← m.getGuard (jsOrS g m.config.defaultGuard)
  match gd.getRole n with
  | some r => pure r
  | none => throw (.roleNotFound n)

/-- `getAllPermissions` (lines 190-193). -/
def PermissionManager.getAllPermissions (m : PermissionManager) (g : Option String) :
    Except PermError (List Permission) := do
  let gd ← m.getGuard (jsOrS g m.config.defaultGuard)
  pure gd.permissions

/-- `getAllRoles` (lines 195-198). -/
def PermissionManager.getAllRoles (m : PermissionManager) (g : Option String) :
    Except PermError (List Role) := do
  let gd ← m.getGuard (jsOrS g m.config.defaultGuard)
  pure gd.roles

/-- `registerPermissionCheck` (lines 200-202). -/
def PermissionManager.registerPermissionCheck (m : PermissionManager) (n : String)
    (c : PermissionCheck) : PermissionManager :=
  { m with customPermissionChecks := jsMapSet m.customPermissionChecks n c }

/-- `registerRoleCheck` (lines 204-206). -/
def PermissionManager.registerRoleCheck (m : PermissionManager) (n : String)
    (c : RoleCheck) : PermissionManager :=
  { m with customRoleChecks := jsMapSet m.customRoleChecks n c }

/-- `checkPermission` (lines 208-219): resolve the guard key via
`guardName || defaultGuard`; a custom check registered under that key is
called with (user, permission name, key), otherwise the subject's own
`hasPermission` decides. -/
def PermissionManager.checkPermission (m : PermissionManager) (u : PermissionUser) (x : POrN)
    (g : Option String) : Bool :=
  let k := jsOrS g m.config.defaultGuard
  match List.lookup k m.customPermissionChecks with
  | some c => c u (pname x) k
  | none => u.hasPermission x k

/-- `checkRole` (lines 221-232), symmetric to `checkPermission`. -/
def PermissionManager.checkRole (m : PermissionManager) (u : PermissionUser) (y : RorN)
    (g : Option String) : Bool :=
  let k := jsOrS g m.config.defaultGuard
  match List.lookup k m.customRoleChecks with
  | some c => c u (rname y) k
  | none => u.hasRole y k

lemma lookup_jsMapSet_self {α : Type} (m : List (String × α)) (k : String) (v : α) :
    List.lookup k (jsMapSet m k v) = some v := by
  induction m with
  | nil => simp [jsMapSet, List.lookup]
  | cons e rest ih =>
    obtain ⟨e1, e2⟩ := e
    by_cases h : e1 = k
    · simp [jsMapSet, h, List.lookup]
    · have h2 : (k == e1) = false := by simp [Ne.symm h]
      simp [jsMapSet, h, ih, List.lookup, h2]

/-- A custom check that always grants, used in the C2 theorems. -/
def cexCheck : PermissionCheck := fun _ _ _ => true

/-- A manager with default guard `"web"` and a custom permission check
registered under the key `""`. -/
def mC2 : PermissionManager :=
  ⟨[("web", ⟨"web", [], []⟩)], ⟨false, 3600, "web"⟩, [("", cexCheck)], []⟩

/-- A subject whose own checks always deny. -/
def uC2 : PermissionUser := ⟨fun _ _ => false, fun _ _ => false⟩

/-- C2 counterexample: a check is registered under the supplied guard key
`""`, yet `checkPermission(u, "x", "")` does not return its (true) result —
`guardName || defaultGuard` treats the empty string as absent and falls
back to `"web"`, where no check is registered, so the subject's own (false)
`hasPermission` decides. -/
theorem c2_counterexample :
    List.lookup "" mC2.customPermissionChecks = some cexCheck ∧
    cexCheck uC2 "x" "" = true ∧
    PermissionManager.checkPermission mC2 uC2 (Sum.inl "x") (some "") = false :=
  ⟨rfl, rfl, rfl⟩

/-- C2 (amended): with the guard key resolved as the code resolves it —
`g` when supplied and nonempty, else the configured default guard — a
custom check registered under that key fully decides `checkPermission`
(called with the subject, the permission's name and the key), and with no
check under that key the subject's own `hasPermission` decides; the same
holds for `checkRole` over role checks, and `registerPermissionCheck`
stores its callback under the given key. -/
theorem c2_check_amended : ∀ (m : PermissionManager) (u : PermissionUser) (x : POrN)
    (y : RorN) (g : Option String),
    (∀ c, List.lookup (jsOrS g m.config.defaultGuard) m.customPermissionChecks = some c →
      m.checkPermission u x g = c u (pname x) (jsOrS g m.config.defaultGuard)) ∧
    (List.lookup (jsOrS g m.config.defaultGuard) m.customPermissionChecks = none →
      m.checkPermission u x g = u.hasPermission x (jsOrS g m.config.defaultGuard)) ∧
    (∀ c, List.lookup (jsOrS g m.config.defaultGuard) m.customRoleChecks = some c →
      m.checkRole u y g = c u (rname y) (jsOrS g m.config.defaultGuard)) ∧
    (List.lookup (jsOrS g m.config.defaultGuard) m.customRoleChecks = none →
      m.checkRole u y g = u.hasRole y (jsOrS g m.config.defaultGuard)) ∧
    ∀ (n : String) (c : PermissionCheck),
      List.lookup n (m.registerPermissionCheck n c).customPermissionChecks = some c := by
  intro m u x y g
  refine ⟨?_, ?_, ?_, ?_, ?_⟩
  · intro c hc
    simp [PermissionManager.checkPermission, hc]
  · intro hc
    simp [PermissionManager.checkPermission, hc]
  · intro c hc
    simp [PermissionManager.checkRole, hc]
  · intro hc
    simp [PermissionManager.checkRole, hc]
  · intro n c
    exact lookup_jsMapSet_self m.customPermissionChecks n c

/-- C2 witness: after registering under `"custom"`, `checkPermission` with
guard `"custom"` returns exactly the callback's result; with no check under
the default key the subject's own `hasPermission` decides. -/
theorem c2_witness :
    PermissionManager.checkPermission (PermissionManager.registerPermissionCheck mC2 "custom"
        cexCheck) uC2 (Sum.inl "x") (some "custom") = cexCheck uC2 "x" "custom" ∧
    PermissionManager.checkPermission mC2 uC2 (Sum.inl "x") none =
      PermissionUser.hasPermission uC2 (Sum.inl "x") "web" :=
  ⟨(c2_check_amended (PermissionManager.registerPermissionCheck mC2 "custom" cexCheck) uC2
      (Sum.inl "x") (Sum.inl "r") (some "custom")).1 cexCheck rfl,
    (c2_check_amended mC2 uC2 (Sum.inl "x") (Sum.inl "r") none).2.1 rfl⟩

/-- C6: lookups fail exactly on a miss with the named failure carrying the
missing identifier: `getGuard(n)` yields `GuardNotFoundException(n)` iff no
guard named `n` is registered (and returns the registered guard otherwise);
when the resolved guard exists, `getPermission(n, g)` yields
`PermissionNotFoundException(n)` iff that guard holds no permission named
`n`, and `getRole(n, g)` yields `RoleNotFoundException(n)` iff it holds no
role named `n`. -/
theorem c6_lookup_failures : ∀ (m : PermissionManager) (n : String) (g : Option String),
    (m.getGuard n = .error (.guardNotFound n) ↔ List.lookup n m.guards = none) ∧
    (∀ gd, List.lookup n m.guards = some gd → m.getGuard n = .ok gd) ∧
    (∀ gd, List.lookup (jsOrS g m.config.defaultGuard) m.guards = some gd →
      (m.getPermission n g = .error (.permissionNotFound n) ↔ gd.getPermission n = none)) ∧
    (∀ gd, List.lookup (jsOrS g m.config.defaultGuard) m.guards = some gd →
      (m.getRole n g = .error (.roleNotFound n) ↔ gd.getRole n = none)) := by
  intro m n g
  refine ⟨?_, ?_, ?_, ?_⟩
  · cases h : List.lookup n m.guards <;> simp [PermissionManager.getGuard, h]
  · intro gd hgd
    simp [PermissionManager.getGuard, hgd]
  · intro gd hgd
    rw [PermissionManager.getPermission]
    simp only [PermissionManager.getGuard, hgd]
    show (match gd.getPermission n with
      | some p => (pure p : Except PermError Permission)
      | none => Except.error (PermError.permissionNotFound n)) =
        Except.error (PermError.permissionNotFound n) ↔ gd.getPermission n = none
    cases hf : gd.getPermission n <;> simp [pure, Except.pure]
  · intro gd hgd
    rw [PermissionManager.getRole]
    simp only [PermissionManager.getGuard, hgd]
    show (match gd.getRole n with
      | some r => (pure r : Except PermError Role)
      | none => Except.error (PermError.roleNotFound n)) =
        Except.error (PermError.roleNotFound n) ↔ gd.getRole n = none
    cases hf : gd.getRole n <;> simp [pure, Except.pure]

/-- C6 witness: a concrete manager with one guard `"web"` holding one
permission `"p"` and no role `"r"`. -/
theorem c6_witness :
    PermissionManager.getGuard
        ⟨[("web", ⟨"web", [⟨"i", "p", "web", none, 0, 0⟩], []⟩)], ⟨false, 3600, "web"⟩, [], []⟩
        "api" = .error (.guardNotFound "api") ∧
    PermissionManager.getPermission
        ⟨[("web", ⟨"web", [⟨"i", "p", "web", none, 0, 0⟩], []⟩)], ⟨false, 3600, "web"⟩, [], []⟩
        "q" none = .error (.permissionNotFound "q") ∧
    PermissionManager.getRole
        ⟨[("web", ⟨"web", [⟨"i", "p", "web", none, 0, 0⟩], []⟩)], ⟨false, 3600, "web"⟩, [], []⟩
        "r" none = .error (.roleNotFound "r") :=
  ⟨((c6_lookup_failures ⟨[("web", ⟨"web", [⟨"i", "p", "web", none, 0, 0⟩], []⟩)],
        ⟨false, 3600, "web"⟩, [], []⟩ "api" none).1).mpr rfl,
    ((c6_lookup_failures ⟨[("web", ⟨"web", [⟨"i", "p", "web", none, 0, 0⟩], []⟩)],
        ⟨false, 3600, "web"⟩, [], []⟩ "q" none).2.2.1 _ rfl).mpr rfl,
    ((c6_lookup_failures ⟨[("web", ⟨"web", [⟨"i", "p", "web", none, 0, 0⟩], []⟩)],
        ⟨false, 3600, "web"⟩, [], []⟩ "r" none).2.2.2 _ rfl).mpr rfl⟩

/-- Pointwise update of a function heap. -/
def upd {α : Type} (f : Nat → α) (i : Nat) (v : α) : Nat → α :=
  fun j => if j = i then v else f j

lemma upd_self {α : Type} (f : Nat → α) (i : Nat) (v : α) : upd f i v i = v := by
  simp [upd]

lemma upd_ne {α : Type} (f : Nat → α) (i : Nat) (v : α) (j : Nat) (h : j ≠ i) :
    upd f i v j = f j := by
  simp [upd, h]

/-- A heap of config objects and guards-map objects.  `forGuard` aliases and
mutates such objects (`new PermissionManager(this.config)` reads the passed
config object, `manager.config.defaultGuard = guardName` mutates the new
manager's own config object, `manager.guards = new Map(this.guards)` binds
a fresh map holding a copy of the entries), so these two kinds of mutable
state are modelled with explicit references. -/
structure PMStore where
  configs : Nat → Config
  nConfigs : Nat
  maps : Nat → List (String × Guard)
  nMaps : Nat

/-- A `PermissionManager` object: references to its config and guards-map,
plus its check registries (freshly allocated per object, never shared). -/
structure PMObject where
  configRef : Nat
  guardsRef : Nat
  customPermissionChecks : List (String × PermissionCheck)
  customRoleChecks : List (String × RoleCheck)

/-- The `PermissionManager` constructor at the heap level (lines 118-138):
merge the given config into a fresh config record, allocate a fresh empty
guards map, and eagerly create the default guard in it.  The optional
collaborator bundle is omitted — it does not affect the modelled state. -/
def PMConstruct (s : PMStore) (cin : ConfigIn) : PMStore × PMObject :=
  let cfg := mergeConfig cin
  let s1 : PMStore :=
    { configs := upd s.configs s.nConfigs cfg
      nConfigs := s.nConfigs + 1
      maps := upd s.maps s.nMaps (jsMapSet [] cfg.defaultGuard ⟨cfg.defaultGuard, [], []⟩)
      nMaps := s.nMaps + 1 }
  (s1, ⟨s.nConfigs, s.nMaps, [], []⟩)

/-- Read a manager object's observable state out of the store. -/
def PMStore.deref (s : PMStore) (m : PMObject) : PermissionManager :=
  ⟨s.maps m.guardsRef, s.configs m.configRef, m.customPermissionChecks, m.customRoleChecks⟩

/-- `forGuard` (lines 238-243) at the heap level: run the constructor on
this manager's config object, rebind the new manager's `guards` field to a
fresh map holding a copy of this manager's entries, then mutate the new
manager's config object's `defaultGuard`. -/
def PermissionManager.forGuard (s : PMStore) (m : PMObject) (g : String) : PMStore × PMObject :=
  let r := PMConstruct s ((s.configs m.configRef).toIn)
  let s2 : PMStore :=
    { r.1 with maps := upd r.1.maps r.1.nMaps (r.1.maps m.guardsRef), nMaps := r.1.nMaps + 1 }
  let m2 : PMObject := { r.2 with guardsRef := r.1.nMaps }
  let s3 : PMStore :=
    { s2 with
      configs := upd s2.configs m2.configRef
        ({ s2.configs m2.configRef with defaultGuard := g }) }
  (s3, m2)

/-- `createGuard` at the heap level: mutate the guards map the object
references. -/
def PMStore.createGuard (s : PMStore) (m : PMObject) (n : String) : PMStore :=
  { s with maps := upd s.maps m.guardsRef (jsMapSet (s.maps m.guardsRef) n ⟨n, [], []⟩) }

/-- Well-formedness: a live object's references lie below the allocation
frontiers. -/
def PMStore.WF (s : PMStore) (m : PMObject) : Prop :=
  m.configRef < s.nConfigs ∧ m.guardsRef < s.nMaps

instance (s : PMStore) (m : PMObject) : Decidable (PMStore.WF s m) := by
  unfold PMStore.WF
  infer_instance

lemma forGuard_new_guards (s : PMStore) (m : PMObject) (g : String) (h : PMStore.WF s m) :
    (PMStore.deref (PermissionManager.forGuard s m g).1
        (PermissionManager.forGuard s m g).2).guards = (PMStore.deref s m).guards := by
  obtain ⟨_, h2⟩ := h
  have hm1 : m.guardsRef ≠ s.nMaps := Nat.ne_of_lt h2
  simp [PermissionManager.forGuard, PMConstruct, PMStore.deref, upd_self, upd_ne _ _ _ _ hm1]

lemma forGuard_new_default (s : PMStore) (m : PMObject) (g : String) :
    (PMStore.deref (PermissionManager.forGuard s m g).1
        (PermissionManager.forGuard s m g).2).config.defaultGuard = g := by
  simp [PermissionManager.forGuard, PMConstruct, PMStore.deref, upd_self]

lemma forGuard_old_unchanged (s : PMStore) (m : PMObject) (g : String) (h : PMStore.WF s m) :
    PMStore.deref (PermissionManager.forGuard s m g).1 m = PMStore.deref s m := by
  obtain ⟨h1, h2⟩ := h
  have hc : m.configRef ≠ s.nConfigs := Nat.ne_of_lt h1
  have hm1 : m.guardsRef ≠ s.nMaps := Nat.ne_of_lt h2
  have hm2 : m.guardsRef ≠ s.nMaps + 1 := Nat.ne_of_lt (Nat.lt_succ_of_lt h2)
  simp [PermissionManager.forGuard, PMConstruct, PMStore.deref, upd_ne _ _ _ _ hc,
    upd_ne _ _ _ _ hm1, upd_ne _ _ _ _ hm2]

/-- C8: `forGuard(g)` yields a manager whose guards map equals a copy of
the original's map as of the call and whose default guard is `g`, while the
original manager's observable state (guards map, config, custom checks) is
untouched by the call; creating a guard through the returned manager still
leaves the original's state unchanged (the copy is a fresh map object). -/
theorem c8_forGuard : ∀ (s : PMStore) (m : PMObject) (g : String), PMStore.WF s m →
    (PMStore.deref (PermissionManager.forGuard s m g).1
        (PermissionManager.forGuard s m g).2).guards = (PMStore.deref s m).guards ∧
    (PMStore.deref (PermissionManager.forGuard s m g).1
        (PermissionManager.forGuard s m g).2).config.defaultGuard = g ∧
    PMStore.deref (PermissionManager.forGuard s m g).1 m = PMStore.deref s m ∧
    ∀ n, PMStore.deref
        (PMStore.createGuard (PermissionManager.forGuard s m g).1
          (PermissionManager.forGuard s m g).2 n) m = PMStore.deref s m := by
  intro s m g h
  refine ⟨forGuard_new_guards s m g h, forGuard_new_default s m g,
    forGuard_old_unchanged s m g h, ?_⟩
  intro n
  obtain ⟨h1, h2⟩ := h
  have hc : m.configRef ≠ s.nConfigs := Nat.ne_of_lt h1
  have hm1 : m.guardsRef ≠ s.nMaps := Nat.ne_of_lt h2
  have hm2 : m.guardsRef ≠ s.nMaps + 1 := Nat.ne_of_lt (Nat.lt_succ_of_lt h2)
  simp [PermissionManager.forGuard, PMConstruct, PMStore.deref, PMStore.createGuard,
    upd_ne _ _ _ _ hc, upd_ne _ _ _ _ hm1, upd_ne _ _ _ _ hm2]

/-- A one-config, one-map store whose only manager object references guard
map `[("web", ...)]` — for the C8/C9 witnesses. -/
def sEx : PMStore := ⟨fun _ => ⟨false, 3600, "web"⟩, 1, fun _ => [("web", ⟨"web", [], []⟩)], 1⟩

/-- The manager object living in `sEx`. -/
def mEx : PMObject := ⟨0, 0, [], []⟩

/-- C8 witness at the concrete store `sEx`. -/
theorem c8_witness :
    (PMStore.deref (PermissionManager.forGuard sEx mEx "api").1
        (PermissionManager.forGuard sEx mEx "api").2).guards = (PMStore.deref sEx mEx).guards ∧
    (PMStore.deref (PermissionManager.forGuard sEx mEx "api").1
        (PermissionManager.forGuard sEx mEx "api").2).config.defaultGuard = "api" ∧
    PMStore.deref (PermissionManager.forGuard sEx mEx "api").1 mEx = PMStore.deref sEx mEx ∧
    PMStore.deref (PMStore.createGuard (PermissionManager.forGuard sEx mEx "api").1
        (PermissionManager.forGuard sEx mEx "api").2 "v2") mEx = PMStore.deref sEx mEx :=
  ⟨(c8_forGuard sEx mEx "api" (by decide)).1, (c8_forGuard sEx mEx "api" (by decide)).2.1,
    (c8_forGuard sEx mEx "api" (by decide)).2.2.1,
    (c8_forGuard sEx mEx "api" (by decide)).2.2.2 "v2"⟩

lemma except_ops_guard_error (mv : PermissionManager) (n f : String) (t : Nat)
    (g0 : Option String) (e : PermError)
    (h : mv.getGuard (jsOrS g0 mv.config.defaultGuard) = .error e) :
    mv.createPermission n g0 f t = .error e ∧
    mv.createRole n g0 f t = .error e ∧
    mv.getPermission n g0 = .error e ∧
    mv.getRole n g0 = .error e ∧
    mv.getAllPermissions g0 = .error e ∧
    mv.getAllRoles g0 = .error e := by
  refine ⟨?_, ?_, ?_, ?_, ?_, ?_⟩ <;>
    simp only [PermissionManager.createPermission, PermissionManager.createRole,
      PermissionManager.getPermission, PermissionManager.getRole,
      PermissionManager.getAllPermissions, PermissionManager.getAllRoles, h] <;> rfl

/-- C9: when `g` is not a key of the original manager's guards map, the
manager returned by `forGuard(g)` holds no guard named `g` (the default
guard its constructor created is discarded when the guards field is rebound
to the copied map), so every operation that resolves the default guard —
`getDefaultGuard`, and `createPermission` / `createRole` / `getPermission`
/ `getRole` / `getAllPermissions` / `getAllRoles` without an explicit
guard — fails with `GuardNotFoundException(g)`. -/
theorem c9_forGuard_missing : ∀ (s : PMStore) (m : PMObject) (g : String)
    (mv : PermissionManager), PMStore.WF s m →
    List.lookup g (PMStore.deref s m).guards = none →
    mv = PMStore.deref (PermissionManager.forGuard s m g).1
      (PermissionManager.forGuard s m g).2 →
    mv.getDefaultGuard = .error (.guardNotFound g) ∧
    (∀ n f t, mv.createPermission n none f t = .error (.guardNotFound g)) ∧
    (∀ n f t, mv.createRole n none f t = .error (.guardNotFound g)) ∧
    (∀ n, mv.getPermission n none = .error (.guardNotFound g)) ∧
    (∀ n, mv.getRole n none = .error (.guardNotFound g)) ∧
    mv.getAllPermissions none = .error (.guardNotFound g) ∧
    mv.getAllRoles none = .error (.guardNotFound g) := by
  intro s m g mv hwf hmiss hmv
  have hguards : mv.guards = (PMStore.deref s m).guards := by
    rw [hmv]; exact forGuard_new_guards s m g hwf
  have hdef : mv.config.defaultGuard = g := by
    rw [hmv]; exact forGuard_new_default s m g
  have hlook : List.lookup g mv.guards = none := by rw [hguards]; exact hmiss
  have hgg : mv.getGuard (jsOrS none mv.config.defaultGuard) = .error (.guardNotFound g) := by
    rw [show jsOrS none mv.config.defaultGuard = g from hdef]
    simp [PermissionManager.getGuard, hlook]
  have hops := fun n f t => except_ops_guard_error mv n f t none (.guardNotFound g) hgg
  refine ⟨?_, ?_, ?_, ?_, ?_, ?_, ?_⟩
  · exact hgg
  · intro n f t; exact (hops n f t).1
  · intro n f t; exact (hops n f t).2.1
  · intro n; exact (hops n "" 0).2.2.1
  · intro n; exact (hops n "" 0).2.2.2.1
  · exact (hops "" "" 0).2.2.2.2.1
  · exact (hops "" "" 0).2.2.2.2.2

/-- C9 witness: `forGuard "api"` on `sEx` (which registers only `"web"`)
gives a manager on which default-guard resolution fails everywhere. -/
theorem c9_witness :
    PermissionManager.getDefaultGuard
        (PMStore.deref (PermissionManager.forGuard sEx mEx "api").1
          (PermissionManager.forGuard sEx mEx "api").2) = .error (.guardNotFound "api") ∧
    PermissionManager.getPermission
        (PMStore.deref (PermissionManager.forGuard sEx mEx "api").1
          (PermissionManager.forGuard sEx mEx "api").2) "p" none =
      .error (.guardNotFound "api") ∧
    PermissionManager.createPermission
        (PMStore.deref (PermissionManager.forGuard sEx mEx "api").1
          (PermissionManager.forGuard sEx mEx "api").2) "p" none "f" 0 =
      .error (.guardNotFound "api") :=
  ⟨(c9_forGuard_missing sEx mEx "api" _ (by decide) (by decide) rfl).1,
    (c9_forGuard_missing sEx mEx "api" _ (by decide) (by decide) rfl).2.2.2.1 "p",
    (c9_forGuard_missing sEx mEx "api" _ (by decide) (by decide) rfl).2.1 "p" "f" 0⟩
